import Mathlib

/-!
Verification of the skillguru-ai tutoring engine.

Shallow embedding of the repository's four Python modules:
  * `RAG_PIPELINE.py` — chunking, BM25 reranking, hybrid retrieval;
  * `rag_adapter.py`  — `KritikaRAGAdapter` (RAG gating and safe retrieval);
  * `ai_tutor.py`     — `UltraTutorV6` (session state, signals, difficulty,
                        meta-block protocol parser, consolidation, turn handler);
  * `api.py`          — FastAPI surface (not needed by the claims below).

Python strings are `String`, Python `dict`s (insertion ordered) are association
lists `List (String × α)` with Python's update-in-place / append-at-end
semantics, Python numbers are `Int`/`Nat`, and code that can raise returns an
explicit error component.  External collaborators (the Gemini REST endpoint,
the chroma vector index, `json.loads`, and the `rank_bm25` scoring function)
are modelled as parameters or documented boundary behaviors.
-/

namespace SkillGuru

/-! ## Python string primitives -/

/-- The whitespace characters stripped/split by Python's `str.strip()` and
`str.split()` (the ASCII ones; the sources only ever meet ASCII whitespace). -/
def isPySpace (c : Char) : Bool :=
  c = ' ' ∨ c = '\t' ∨ c = '\n' ∨ c = '\r' ∨ c = '\x0b' ∨ c = '\x0c'

/-- Python `str.strip()` on a char list. -/
def pyStripL (l : List Char) : List Char :=
  ((l.dropWhile isPySpace).reverse.dropWhile isPySpace).reverse

/-- Python `str.strip()`. -/
def pyStrip (s : String) : String := ⟨pyStripL s.toList⟩

/-- Python `str.lower()` (ASCII case mapping, all the sources need). -/
def pyLower (s : String) : String := ⟨s.toList.map Char.toLower⟩

/-- Python `str.upper()` (ASCII case mapping, all the sources need). -/
def pyUpper (s : String) : String := ⟨s.toList.map Char.toUpper⟩

/-- Python whitespace split `str.split()` (no argument): splits on runs of
whitespace and never yields empty words.  `acc` is the current word, reversed. -/
def pySplitAux : List Char → List Char → List (List Char)
  | [], [] => []
  | [], acc => [acc.reverse]
  | c :: cs, acc =>
    if isPySpace c then
      if acc.isEmpty then pySplitAux cs [] else acc.reverse :: pySplitAux cs []
    else pySplitAux cs (c :: acc)

/-- Python `str.split()` on a char list. -/
def pySplitL (l : List Char) : List (List Char) := pySplitAux l []

/-- Python `str.split()`. -/
def pySplit (s : String) : List String := (pySplitL s.toList).map String.mk

/-- Python `" ".join(words)` on char lists. -/
def joinSepL : List (List Char) → List Char
  | [] => []
  | [w] => w
  | w :: ws => w ++ ' ' :: joinSepL ws

/-- Python `" ".join(words)`. -/
def joinWords (ws : List String) : String := ⟨joinSepL (ws.map String.toList)⟩

/-- Python `str.splitlines()` on a char list: splits at `\n`, `\r\n` and `\r`,
with no trailing empty line for a trailing newline. -/
def pySplitLinesAux : List Char → List Char → List (List Char)
  | [], [] => []
  | [], acc => [acc.reverse]
  | '\r' :: '\n' :: cs, acc => acc.reverse :: pySplitLinesAux cs []
  | '\r' :: cs, acc => acc.reverse :: pySplitLinesAux cs []
  | '\n' :: cs, acc => acc.reverse :: pySplitLinesAux cs []
  | c :: cs, acc => pySplitLinesAux cs (c :: acc)

/-- Python `str.splitlines()`. -/
def pySplitLines (s : String) : List String :=
  (pySplitLinesAux s.toList []).map String.mk

/-- Python `s.split(sep, 1)` restricted to a single-character separator, as in
`line.split(":", 1)`: `none` when the separator does not occur (which is what
the sources guard with `if ":" not in line`). -/
def splitOnceChL (sep : Char) : List Char → Option (List Char × List Char)
  | [] => none
  | c :: cs =>
    if c = sep then some ([], cs)
    else (splitOnceChL sep cs).map (fun p => (c :: p.1, p.2))

/-- Split a char list at the first occurrence of the (nonempty) pattern `pat`,
as in Python `s.split(pat, 1)` guarded by `if pat in s`. -/
def splitOnceSubL (pat : List Char) : List Char → Option (List Char × List Char)
  | [] => none
  | c :: cs =>
    if pat.isPrefixOf (c :: cs) then some ([], (c :: cs).drop pat.length)
    else (splitOnceSubL pat cs).map (fun p => (c :: p.1, p.2))

/-- Python `pat in s` (substring containment) for a nonempty pattern. -/
def containsSub (s pat : String) : Bool := (splitOnceSubL pat.toList s.toList).isSome

/-- Python `s.split(pat, 1)` at the `String` level. -/
def splitOnceSub (pat s : String) : Option (String × String) :=
  (splitOnceSubL pat.toList s.toList).map (fun p => (⟨p.1⟩, ⟨p.2⟩))

/-! ## Python `sorted` (stable) -/

/-- Strict lexicographic comparison of char lists, exactly Python's `<` on
strings (code-point order). -/
def strLtL : List Char → List Char → Bool
  | [], [] => false
  | [], _ :: _ => true
  | _ :: _, [] => false
  | a :: as, b :: bs => if a < b then true else if b < a then false else strLtL as bs

/-- Insert `x` after every already-placed element it does not strictly beat;
the single step of a stable insertion sort.  `gt x y = true` means "`x` must
come strictly before `y`". -/
def insertStable (gt : α → α → Bool) (x : α) : List α → List α
  | [] => [x]
  | y :: ys => if gt x y then x :: y :: ys else y :: insertStable gt x ys

/-- Python's stable `sorted` with strict comparison `gt` ("comes strictly
before"): processes the input left to right, so elements that are tied under
`gt` keep their original relative order — exactly CPython's guarantee for
`sorted(..., reverse=True)`. -/
def pySorted (gt : α → α → Bool) (l : List α) : List α :=
  l.foldl (fun acc x => insertStable gt x acc) []

/-- Python's `>` on pairs `(score, chunk)` — the comparison `sorted(zip(scores,
chunks), reverse=True)` orders by: first component descending, ties by string
(code-point) order descending. -/
def pairGt (p q : Int × String) : Prop :=
  q.1 < p.1 ∨ (q.1 = p.1 ∧ strLtL q.2.toList p.2.toList = true)

instance (p q : Int × String) : Decidable (pairGt p q) := by
  unfold pairGt; infer_instance

/-! ## Python `dict` (insertion ordered) -/

/-- `d[k]` lookup (`dict.get`). -/
def dictGet (d : List (String × α)) (k : String) : Option α :=
  match d with
  | [] => none
  | (k0, v) :: rest => if k0 = k then some v else dictGet rest k

/-- `d.get(k, v0)`. -/
def dictGetD (d : List (String × α)) (k : String) (v0 : α) : α :=
  (dictGet d k).getD v0

/-- `d[k] = v`: update in place when the key is present (keeping its position),
append at the end otherwise — CPython's insertion-order semantics. -/
def dictSet (d : List (String × α)) (k : String) (v : α) : List (String × α) :=
  match d with
  | [] => [(k, v)]
  | (k0, v0) :: rest => if k0 = k then (k0, v) :: rest else (k0, v0) :: dictSet rest k v

/-- `d.setdefault(k, v)` (result dict only; the sources discard the value). -/
def dictSetDefault (d : List (String × α)) (k : String) (v : α) : List (String × α) :=
  if (dictGet d k).isSome then d else d ++ [(k, v)]

/-! ## `RAG_PIPELINE.py` -/

/-- `chunk_text`'s grouping loop `for i in range(0, len(words), chunk_size)`:
consecutive groups of `k` elements (the `k = 0` case never runs — `range`
raises first, see `chunk_text`). -/
def groupWords (k : Nat) : List α → List (List α)
  | [] => []
  | x :: rest =>
    if k = 0 then []
    else (x :: rest).take k :: groupWords k ((x :: rest).drop k)
termination_by xs => xs.length
decreasing_by
  simp only [List.length_drop, List.length_cons]
  omega

/-- `RAG_PIPELINE.chunk_text` (lines 21–26): split the text on whitespace and
join every consecutive `chunk_size`-word group with single spaces.  Python's
`range(0, n, 0)` raises `ValueError`, hence the error case. -/
def chunk_text (text : String) (chunk_size : Nat) : Except String (List String) :=
  if chunk_size = 0 then .error "ValueError: range() arg 3 must not be zero"
  else .ok ((groupWords chunk_size (pySplitL text.toList)).map (fun g => ⟨joinSepL g⟩))

/-- `RAG_PIPELINE.rerank_bm25` (lines 123–130).  The BM25 scoring itself is
the external `rank_bm25` library (`BM25Okapi(tokenized_chunks)` followed by
`get_scores(query_tokens)`); it is modelled by the input list `scores`, one
score per chunk, with two boundary facts of the library used below:
(a) `BM25Okapi.__init__` computes `avgdl = num_doc / corpus_size` and hence
raises `ZeroDivisionError` when `chunks` is empty, and (b) a chunk sharing no
token with the query receives score `0`.  The in-source part is
`sorted(zip(scores, chunks), reverse=True)` — Python's stable descending sort
on `(score, chunk-text)` pairs — followed by `[:3]`. -/
def rerank_bm25 (scores : List Int) (chunks : List String) : Except String (List String) :=
  if chunks.isEmpty then .error "ZeroDivisionError: division by zero"
  else .ok (((pySorted (fun p q => decide (pairGt p q)) (scores.zip chunks)).map Prod.snd).take 3)

/-- `RAG_PIPELINE.retrieve_with_rerank` (lines 133–141): queries the chroma
collection for the candidate chunks (the external vector index, modelled by
the input `candidates`; an empty index yields an empty candidate list) and
reranks them with `rerank_bm25`. -/
def retrieve_with_rerank (scores : List Int) (candidates : List String) :
    Except String (List String) :=
  rerank_bm25 scores candidates

/-! ## `rag_adapter.py` -/

/-- `KritikaRAGAdapter.should_use_rag` (lines 14–27). -/
def should_use_rag (enabled : Bool) (weakness_score : Int) (difficulty : String) : Bool :=
  if !enabled then false
  else if weakness_score ≥ 3 then true
  else if difficulty = "beginner" ∨ difficulty = "intermediate" then true
  else false

/-- `KritikaRAGAdapter.retrieve_context` (lines 29–38): joins the reranked
chunks with blank lines, and catches every exception, returning `""`. -/
def retrieve_context (scores : List Int) (candidates : List String) : String :=
  match retrieve_with_rerank scores candidates with
  | .ok chunks => String.intercalate "\n\n" chunks
  | .error _ => ""

/-! ## `ai_tutor.py` — session state -/

/-- `KEEP_HISTORY` (ai_tutor.py line 18). -/
def KEEP_HISTORY : Nat := 12

/-- `CONSOLIDATE_AFTER` (ai_tutor.py line 19). -/
def CONSOLIDATE_AFTER : Nat := 10

/-- One entry of the parsed consolidation JSON's `ranked_weaknesses` list:
the `topic` and `int(score)` fields that the merge loop reads (the
`short_reason` strings are stored but never read back). -/
structure RankedWeakness where
  topic : String
  score : Int
deriving Repr, DecidableEq

/-- The consolidation report — the model of the `parsed` dict produced by
`run_consolidation` (either `json.loads` output or the local fallback).  The
`career_mappings` entries are unconstrained JSON objects rendered only back to
the user; they are modelled as opaque strings. -/
structure Report where
  ranked_weaknesses : List RankedWeakness
  difficulty_recs : List (String × String)
  quick_strengths : List String
  career_mappings : List String
  suggested_next_actions : List String
deriving Repr, DecidableEq

/-- `self.memory` of `UltraTutorV6.__init__` (ai_tutor.py lines 43–52).
The wall-clock fields (`ts` inside turns, `last_consolidation_ts`) are
environmental (`time.time()`) and carry no logic; they are omitted. -/
structure Memory where
  history : List (String × String)
  topics_seen : List String
  weakness_scores : List (String × Int)
  difficulty : List (String × String)
  interaction_count : Nat
  consolidation_summary : Option Report
  rag_chunks : List String
deriving Repr, DecidableEq

/-- `self.last_quiz` (ai_tutor.py line 318). -/
structure LastQuiz where
  topic : String
  result : String
deriving Repr, DecidableEq

/-- The `UltraTutorV6` instance state. -/
structure UltraTutorV6 where
  memory : Memory
  quiz_active : Bool
  last_quiz : Option LastQuiz
deriving Repr, DecidableEq

/-- The freshly initialized memory of `UltraTutorV6.__init__`. -/
def initMemory : Memory :=
  { history := [], topics_seen := [], weakness_scores := [], difficulty := [],
    interaction_count := 0, consolidation_summary := none, rag_chunks := [] }

/-- A freshly constructed `UltraTutorV6()`. -/
def initTutor : UltraTutorV6 :=
  { memory := initMemory, quiz_active := false, last_quiz := none }

/-- `UltraTutorV6.push_turn` (lines 60–63): append the turn, keep the last
`KEEP_HISTORY` entries (`history[-KEEP_HISTORY:]`). -/
def push_turn (m : Memory) (user_text tutor_text : String) : Memory :=
  let h := m.history ++ [(user_text, tutor_text)]
  { m with history := h.drop (h.length - KEEP_HISTORY) }

/-- `UltraTutorV6.register_topic` (lines 65–72): no-op for a falsy (empty)
topic and for an already-seen topic; otherwise append to `topics_seen` and
`setdefault` the score to `0` and the difficulty to `"intermediate"`. -/
def register_topic (m : Memory) (topic : String) : Memory :=
  if topic = "" then m
  else if topic ∈ m.topics_seen then m
  else
    { m with
      topics_seen := m.topics_seen ++ [topic],
      weakness_scores := dictSetDefault m.weakness_scores topic 0,
      difficulty := dictSetDefault m.difficulty topic "intermediate" }

/-- The `NameError` raised by `UltraTutorV6.add_weakness_signal` line 96. -/
def nameErrorMsg : String := "NameError: name user_msg is not defined"

/-- `UltraTutorV6.add_weakness_signal` (lines 85–102).  After the
`register_topic` call, line 96 evaluates
`self._update_rag_chunks(user_msg, topic)`; `user_msg` is not bound in the
method, in the class, or at module level (the CLI uses `msg`), so CPython
raises `NameError` while evaluating the argument — the weight branches on
lines 97–102 (`mistake` +3, `confusion` +2, `repeat` +1) are unreachable.
The result carries the state as mutated so far plus the raised error. -/
def add_weakness_signal (m : Memory) (topic signal : String) : Memory × Option String :=
  let t := if topic = "" then "general" else topic
  let m := register_topic m t
  (m, some nameErrorMsg)

/-- `UltraTutorV6.get_weakest_topics` (lines 104–107): topics sorted by score
descending (Python's stable `sorted(..., reverse=True)`), first `top_k`. -/
def get_weakest_topics (m : Memory) (top_k : Nat := 5) : List (String × Int) :=
  (pySorted (fun a b => decide (b.2 < a.2)) m.weakness_scores).take top_k

/-- The threshold mapping of `recompute_difficulty_local` (lines 116–121). -/
def levelOfScore (score : Int) : String :=
  if score ≥ 8 then "beginner"
  else if score ≥ 4 then "intermediate"
  else "advanced"

/-- `UltraTutorV6.recompute_difficulty_local` (lines 110–122): for every
`(topic, score)` in `weakness_scores`, set `difficulty[topic]`. -/
def recompute_difficulty_local (m : Memory) : Memory :=
  { m with
    difficulty :=
      m.weakness_scores.foldl (fun d ts => dictSet d ts.1 (levelOfScore ts.2)) m.difficulty }

/-- `UltraTutorV6.rag_snippet` (lines 125–128). -/
def rag_snippet (m : Memory) : String :=
  if m.rag_chunks.isEmpty then "(no external knowledge loaded)"
  else String.intercalate "\n\n" (m.rag_chunks.drop (m.rag_chunks.length - 3))

/-! ## `ai_tutor.py` — meta-block protocol parser -/

/-- The `res` dict of `parse_meta_block` (line 248). -/
structure MetaInfo where
  topic : Option String
  weakness_signal : String
  difficulty : Option String
  quiz_feedback : String
  ask_consolidation : Bool
deriving Repr, DecidableEq

/-- The all-defaults signal set initialized at line 248. -/
def metaDefault : MetaInfo :=
  { topic := none, weakness_signal := "none", difficulty := none,
    quiz_feedback := "none", ask_consolidation := false }

/-- One iteration of `parse_meta_block`'s loop (lines 249–264): lines without
a `":"` are skipped; otherwise split at the first `":"`, strip and normalize,
and dispatch on the key (unknown keys are ignored). -/
def parse_meta_line (res : MetaInfo) (line : String) : MetaInfo :=
  match splitOnceChL ':' line.toList with
  | none => res
  | some kv =>
    let k := pyUpper (pyStrip ⟨kv.1⟩)
    let v := pyStrip ⟨kv.2⟩
    if k = "TOPIC" then
      { res with topic := if pyLower v = "unknown" then none else some v }
    else if k = "WEAKNESS_SIGNAL" then { res with weakness_signal := pyLower v }
    else if k = "DIFFICULTY" then { res with difficulty := some (pyLower v) }
    else if k = "QUIZ_FEEDBACK" then { res with quiz_feedback := pyLower v }
    else if k = "EXPLICIT_ASK_CONSOLIDATION" then
      { res with ask_consolidation := containsSub (pyLower v) "yes" }
    else res

/-- `UltraTutorV6.parse_meta_block` (lines 247–265). -/
def parse_meta_block (meta_text : String) : MetaInfo :=
  (pySplitLines meta_text).foldl parse_meta_line metaDefault

/-! ## `ai_tutor.py` — external completion service -/

/-- `call_gemini_rest` (lines 23–37).  The network interaction is the
parameter `net`: `none` models a timeout/transport error (any exception inside
the `try`), in which case the function catches it and returns the fixed
apology string; `some t` models a successful round trip whose extracted text
is `t` (the `"error" in data` branch likewise surfaces as the returned
string).  The function itself never raises. -/
def call_gemini_rest (net : String → Option String) (prompt : String) : String :=
  match net prompt with
  | some t => t
  | none => "⚠️ Error contacting Gemini REST API (see server logs)."

/-- The apology string returned by `call_gemini_rest` on a transport error. -/
def apologyMsg : String := "⚠️ Error contacting Gemini REST API (see server logs)."

/-! ## `ai_tutor.py` — prompts (presentation strings) -/

/-- Models `json.dumps` (Python stdlib) of a topic→score dict; feeds only the
LLM prompt text, which every theorem below treats as an opaque input. -/
def dumpsIntDict (d : List (String × Int)) : String :=
  "\x7b" ++ String.intercalate ", " (d.map (fun kv => "\"" ++ kv.1 ++ "\": " ++ toString kv.2)) ++ "\x7d"

/-- Models `json.dumps` of a topic→level dict (prompt text only). -/
def dumpsStrDict (d : List (String × String)) : String :=
  "\x7b" ++ String.intercalate ", " (d.map (fun kv => "\"" ++ kv.1 ++ "\": \"" ++ kv.2 ++ "\"")) ++ "\x7d"

/-- Models the f-string rendering `{self.memory["topics_seen"]}` of a Python
list of strings (prompt text only). -/
def reprStrList (l : List String) : String :=
  "[" ++ String.intercalate ", " (l.map (fun s => "\x27" ++ s ++ "\x27")) ++ "]"

/-- Models `json.dumps(report, indent=2)` used by the `/career` reply and
`run_consolidation` (rendering detail of the stored report; no claim reads it
back). -/
def dumpsReport (r : Report) : String :=
  "\x7b\"ranked_weaknesses\": [" ++
    String.intercalate ", "
      (r.ranked_weaknesses.map (fun w => "\x7b\"topic\": \"" ++ w.topic ++ "\", \"score\": " ++ toString w.score ++ "\x7d")) ++
  "], \"difficulty_recs\": " ++ dumpsStrDict r.difficulty_recs ++
  ", \"quick_strengths\": " ++ reprStrList r.quick_strengths ++
  ", \"career_mappings\": " ++ reprStrList r.career_mappings ++
  ", \"suggested_next_actions\": " ++ reprStrList r.suggested_next_actions ++ "\x7d"

/-- The history rendering shared by `run_consolidation` (line 140–142, last
100 turns) and `build_tutor_prompt` (line 203, last `KEEP_HISTORY` turns):
`"Student: u\nTutor: t"` joined by newlines, `"(no history)"` when empty. -/
def historyText (turns : List (String × String)) : String :=
  if turns.isEmpty then "(no history)"
  else String.intercalate "\n"
    (turns.map (fun t => "Student: " ++ t.1 ++ "\nTutor: " ++ t.2))

/-- The consolidation analysis prompt (lines 144–167): the state-dependent
parts (last-100-turn history, RAG snippet) are rendered as in the source; the
surrounding instruction boilerplate is abbreviated, since the prompt only
flows into the external completion call, which every theorem treats as an
opaque function of the prompt text. -/
def consolidationPrompt (m : Memory) : String :=
  "\nYou are an expert AI tutoring analyst. Analyze the student session and provide a JSON block with:\n1) ranked_weaknesses 2) difficulty_recs 3) quick_strengths 4) career_mappings 5) suggested_next_actions\n\nSession history:\n"
  ++ historyText (m.history.drop (m.history.length - 100))
  ++ "\n\nRAG knowledge (if any):\n" ++ rag_snippet m
  ++ "\n\nReturn ONLY valid JSON.\n"

/-- `UltraTutorV6.build_tutor_prompt` (lines 202–244): renders the history
*before* recomputing difficulty (line 203 vs 205), then assembles the tutor
prompt.  The state-dependent parts (score/difficulty summaries, topics,
interaction count, history, RAG snippet, user message) are rendered as in
the source; the instruction boilerplate is abbreviated, since the prompt
only flows into the external completion call, which every theorem treats as
an opaque function of the prompt text.  Returns the mutated state together
with the prompt. -/
def build_tutor_prompt (tut : UltraTutorV6) (user_msg : String) : UltraTutorV6 × String :=
  let hist := historyText (tut.memory.history.drop (tut.memory.history.length - KEEP_HISTORY))
  let m := recompute_difficulty_local tut.memory
  let prompt :=
    "\nYou are an expert, empathetic AI Tutor.\n\nSESSION MEMORY (JSON summary):\n\x7b\n  \"weakness_scores\": "
    ++ dumpsIntDict m.weakness_scores
    ++ ",\n  \"difficulty\": " ++ dumpsStrDict m.difficulty
    ++ ",\n  \"topics_seen\": " ++ reprStrList m.topics_seen
    ++ ",\n  \"interaction_count\": " ++ toString m.interaction_count
    ++ "\n\x7d\n\nRecent conversation:\n" ++ hist
    ++ "\n\nRAG_SNIPPET:\n" ++ rag_snippet m
    ++ "\n\nStudent message:\n\"\"\"" ++ user_msg
    ++ "\"\"\"\n\nOUTPUT required (two parts): the tutor reply, then a META block beginning with EXACTLY \"###META###\" containing TOPIC / WEAKNESS_SIGNAL / DIFFICULTY / QUIZ_FEEDBACK / EXPLICIT_ASK_CONSOLIDATION lines.\n"
  ({ tut with memory := m }, prompt)

/-! ## `ai_tutor.py` — consolidation -/

/-- The fallback minimal report of `run_consolidation` (lines 179–185), built
when no JSON can be parsed from the completion text. -/
def fallbackReport (m : Memory) : Report :=
  { ranked_weaknesses := (get_weakest_topics m).map (fun ts => ⟨ts.1, ts.2⟩),
    difficulty_recs := m.difficulty,
    quick_strengths := [],
    career_mappings := [],
    suggested_next_actions :=
      ["Try a short quiz on your weakest topic.", "Review fundamentals and examples."] }

/-- The merge step of `run_consolidation`'s weakness loop (lines 190–196):
skip falsy topics, otherwise `weakness_scores[t] = max(weakness_scores.get(t, 0), s)`. -/
def mergeWeakness (ws : List (String × Int)) (w : RankedWeakness) : List (String × Int) :=
  if w.topic = "" then ws
  else dictSet ws w.topic (max (dictGetD ws w.topic 0) w.score)

/-- `UltraTutorV6.run_consolidation` (lines 131–199).  The completion call is
`call_gemini_rest net`; the JSON substring extraction plus `json.loads` plus
field reads (lines 170–176, Python stdlib) are modelled by the parameter
`jparse` — `none` meaning the `except` branch, which falls back to the local
minimal report.  Then: store the summary, merge `ranked_weaknesses`
score-by-score with `max`, and overwrite `difficulty` from `difficulty_recs`. -/
def run_consolidation (tut : UltraTutorV6) (net : String → Option String)
    (jparse : String → Option Report) : UltraTutorV6 × Report :=
  let raw := call_gemini_rest net (consolidationPrompt tut.memory)
  let parsed := (jparse raw).getD (fallbackReport tut.memory)
  let m := { tut.memory with consolidation_summary := some parsed }
  let m := { m with weakness_scores := parsed.ranked_weaknesses.foldl mergeWeakness m.weakness_scores }
  let m := { m with difficulty := parsed.difficulty_recs.foldl (fun d kv => dictSet d kv.1 kv.2) m.difficulty }
  ({ tut with memory := m }, parsed)

/-! ## `ai_tutor.py` — per-turn handler -/

/-- The tail of `UltraTutorV6.handle_user` (lines 320–332): push the turn,
conditionally consolidate (explicit ask or `interaction_count`
divisible by `CONSOLIDATE_AFTER`), recompute difficulty, return the reply. -/
def finish_turn (tut : UltraTutorV6) (user_msg reply_text : String) (ask : Bool)
    (net : String → Option String) (jparse : String → Option Report) :
    UltraTutorV6 × Except String String :=
  let tut := { tut with memory := push_turn tut.memory user_msg reply_text }
  let tut :=
    if ask ∨ tut.memory.interaction_count % CONSOLIDATE_AFTER = 0 then
      (run_consolidation tut net jparse).1
    else tut
  let tut := { tut with memory := recompute_difficulty_local tut.memory }
  (tut, .ok reply_text)

/-- `UltraTutorV6.handle_user` (lines 268–332).  `net` is the external
completion transport (see `call_gemini_rest`), `jparse` the consolidation
JSON parsing (see `run_consolidation`).  The result pairs the state as left
on the object with either the returned reply or a raised exception (the
`NameError` escaping from `add_weakness_signal`, which no caller in
`ai_tutor.py` catches). -/
def handle_user (tut : UltraTutorV6) (user_msg : String)
    (net : String → Option String) (jparse : String → Option Report) :
    UltraTutorV6 × Except String String :=
  let low := pyLower (pyStrip user_msg)
  if low = "/reset" ∨ low = "reset session" then
    (initTutor, .ok "Session reset. Ready for a new topic — what would you like to learn?")
  else if low = "/career" ∨ low = "career" then
    match tut.memory.consolidation_summary with
    | some s => (tut, .ok (dumpsReport s))
    | none =>
      let (tut, parsed) := run_consolidation tut net jparse
      (tut, .ok (dumpsReport parsed))
  else
    let tut := { tut with memory := { tut.memory with interaction_count := tut.memory.interaction_count + 1 } }
    let (tut, prompt) := build_tutor_prompt tut user_msg
    let raw := call_gemini_rest net prompt
    let (reply_text, meta_text) :=
      match splitOnceSub "###META###" raw with
      | some p => (pyStrip p.1, pyStrip p.2)
      | none => (raw, "")
    let meta := parse_meta_block meta_text
    let topic :=
      match meta.topic with
      | some t => if t = "" then "general" else t
      | none => "general"
    let tut := { tut with memory := register_topic tut.memory topic }
    if meta.weakness_signal ≠ "none" then
      let r := add_weakness_signal tut.memory topic meta.weakness_signal
      ({ tut with memory := r.1 }, .error (r.2.getD nameErrorMsg))
    else
      let tut :=
        match meta.difficulty with
        | some d =>
          if d = "" then tut
          else { tut with memory := { tut.memory with difficulty := dictSet tut.memory.difficulty topic d } }
        | none => tut
      if meta.quiz_feedback = "incorrect" then
        let r := add_weakness_signal tut.memory topic "mistake"
        ({ tut with memory := r.1 }, .error (r.2.getD nameErrorMsg))
      else if meta.quiz_feedback = "partially_correct" then
        let r := add_weakness_signal tut.memory topic "confusion"
        ({ tut with memory := r.1 }, .error (r.2.getD nameErrorMsg))
      else if meta.quiz_feedback = "correct" then
        finish_turn { tut with last_quiz := some ⟨topic, "correct"⟩ } user_msg reply_text
          meta.ask_consolidation net jparse
      else
        finish_turn tut user_msg reply_text meta.ask_consolidation net jparse

/-! ## Spec predicates -/

/-- The §3 registration invariant: every topic keyed in `weakness_scores`
(i.e. appearing among the dict's keys) is also in `topics_seen` and keyed in
`difficulty`. -/
def topicInvariant (m : Memory) : Prop :=
  ∀ t ∈ m.weakness_scores.map Prod.fst,
    t ∈ m.topics_seen ∧ (dictGet m.difficulty t).isSome = true

instance (m : Memory) : Decidable (topicInvariant m) := by
  unfold topicInvariant; infer_instance

/-- A topic's stored weakness score, defaulting to `0` — the value
`weakness_scores.get(t, 0)` that the source reads. -/
def scoreOf (m : Memory) (t : String) : Int := dictGetD m.weakness_scores t 0

/-! ## Lemmas: dictionaries -/

theorem dictGet_dictSet_self (d : List (String × α)) (k : String) (v : α) :
    dictGet (dictSet d k v) k = some v := by
  induction d with
  | nil => simp [dictSet, dictGet]
  | cons p rest ih =>
    obtain ⟨k0, v0⟩ := p
    by_cases h : k0 = k <;> simp [dictSet, dictGet, h, ih]

theorem dictGet_dictSet_ne (d : List (String × α)) {k' k : String} (v : α) (h : k' ≠ k) :
    dictGet (dictSet d k' v) k = dictGet d k := by
  induction d with
  | nil => simp [dictSet, dictGet, h]
  | cons p rest ih =>
    obtain ⟨k0, v0⟩ := p
    by_cases h0 : k0 = k'
    · subst h0; simp [dictSet, dictGet, h]
    · by_cases h1 : k0 = k <;> simp [dictSet, dictGet, h0, h1, Ne.symm h, ih]

theorem dictSet_eq_of_get (d : List (String × α)) {k : String} {v : α}
    (h : dictGet d k = some v) : dictSet d k v = d := by
  induction d with
  | nil => simp [dictGet] at h
  | cons p rest ih =>
    obtain ⟨k0, v0⟩ := p
    by_cases h0 : k0 = k
    · simp only [dictGet, if_pos h0] at h
      simp [dictSet, h0, Option.some_inj.mp h]
    · simp only [dictGet, if_neg h0] at h
      simp [dictSet, h0, ih h]

theorem isSome_dictGet_dictSet (d : List (String × α)) (k' k : String) (v : α)
    (h : (dictGet d k).isSome = true) : (dictGet (dictSet d k' v) k).isSome = true := by
  by_cases hk : k' = k
  · subst hk; simp [dictGet_dictSet_self]
  · rwa [dictGet_dictSet_ne d v hk]

theorem dictGet_append (d1 d2 : List (String × α)) (k : String) :
    dictGet (d1 ++ d2) k = (dictGet d1 k).or (dictGet d2 k) := by
  induction d1 with
  | nil => simp [dictGet]
  | cons p rest ih =>
    obtain ⟨k0, v0⟩ := p
    by_cases h : k0 = k <;> simp [dictGet, h, ih]

theorem dictGet_isSome_iff_mem_keys (d : List (String × α)) (k : String) :
    (dictGet d k).isSome = true ↔ k ∈ d.map Prod.fst := by
  induction d with
  | nil => simp [dictGet]
  | cons p rest ih =>
    obtain ⟨k0, v0⟩ := p
    by_cases h : k0 = k
    · subst h; simp [dictGet]
    · simp only [dictGet, if_neg h, List.map_cons, List.mem_cons]
      rw [ih]
      constructor
      · exact Or.inr
      · rintro (h1 | h1)
        · exact absurd h1.symm h
        · exact h1

theorem isSome_dictGet_dictSetDefault_self (d : List (String × α)) (k : String) (v : α) :
    (dictGet (dictSetDefault d k v) k).isSome = true := by
  unfold dictSetDefault
  by_cases h : (dictGet d k).isSome = true
  · simp [h]
  · rw [if_neg (by simp [h]), dictGet_append]
    rw [Option.not_isSome_iff_eq_none] at h
    simp [h, dictGet]

theorem mem_keys_dictSetDefault (d : List (String × α)) (k a : String) (v : α)
    (h : a ∈ d.map Prod.fst) : a ∈ (dictSetDefault d k v).map Prod.fst := by
  unfold dictSetDefault
  split <;> simp [h]

/-! ## Lemmas: string comparison -/

theorem strLtL_irrefl (a : List Char) : strLtL a a = false := by
  induction a with
  | nil => rfl
  | cons c cs ih => simp [strLtL, ih]

theorem strLtL_trans {a b c : List Char}
    (h1 : strLtL a b = true) (h2 : strLtL b c = true) : strLtL a c = true := by
  induction a generalizing b c with
  | nil =>
    cases b with
    | nil => simp [strLtL] at h1
    | cons y bs =>
      cases c with
      | nil => simp [strLtL] at h2
      | cons z cs => simp [strLtL]
  | cons x as ih =>
    cases b with
    | nil => simp [strLtL] at h1
    | cons y bs =>
      cases c with
      | nil => simp [strLtL] at h2
      | cons z cs =>
        simp only [strLtL] at h1 h2 ⊢
        rcases lt_trichotomy x y with hxy | hxy | hxy
        · rcases lt_trichotomy y z with hyz | hyz | hyz
          · simp [lt_trans hxy hyz]
          · subst hyz; simp [hxy]
          · rw [if_neg (lt_asymm hyz), if_pos hyz] at h2; exact absurd h2 (by simp)
        · subst hxy
          rcases lt_trichotomy x z with hxz | hxz | hxz
          · simp [hxz]
          · subst hxz
            simp only [lt_irrefl, if_false] at h1 h2 ⊢
            exact ih h1 h2
          · rw [if_neg (lt_asymm hxz), if_pos hxz] at h2; exact absurd h2 (by simp)
        · rw [if_neg (lt_asymm hxy), if_pos hxy] at h1; exact absurd h1 (by simp)

theorem strLtL_asymm {a b : List Char} (h : strLtL a b = true) : strLtL b a = false := by
  by_contra hc
  rw [Bool.not_eq_false] at hc
  have := strLtL_trans h hc
  rw [strLtL_irrefl] at this
  exact absurd this (by simp)

theorem strLtL_eq_of_not_lt {a b : List Char}
    (h1 : strLtL a b = false) (h2 : strLtL b a = false) : a = b := by
  induction a generalizing b with
  | nil =>
    cases b with
    | nil => rfl
    | cons y bs => simp [strLtL] at h1
  | cons x as ih =>
    cases b with
    | nil => simp [strLtL] at h2
    | cons y bs =>
      simp only [strLtL] at h1 h2
      rcases lt_trichotomy x y with hxy | hxy | hxy
      · rw [if_pos hxy] at h1; exact absurd h1 (by simp)
      · subst hxy
        simp only [lt_irrefl, if_false] at h1 h2
        rw [ih h1 h2]
      · rw [if_neg (lt_asymm hxy), if_pos hxy] at h2; exact absurd h2 (by simp)

/-! ## Lemmas: stable sort (Python `sorted`) -/

theorem insertStable_perm (gt : α → α → Bool) (x : α) (l : List α) :
    List.Perm (insertStable gt x l) (x :: l) := by
  induction l with
  | nil => exact List.Perm.refl _
  | cons y ys ih =>
    simp only [insertStable]
    split
    · exact List.Perm.refl _
    · exact (List.Perm.cons y ih).trans (List.Perm.swap x y ys)

theorem pySorted_perm_aux (gt : α → α → Bool) (l acc : List α) :
    List.Perm (l.foldl (fun acc x => insertStable gt x acc) acc) (l ++ acc) := by
  induction l generalizing acc with
  | nil => simp
  | cons x xs ih =>
    simp only [List.foldl_cons, List.cons_append]
    exact (ih _).trans
      ((List.Perm.append_left xs (insertStable_perm gt x acc)).trans List.perm_middle)

theorem pySorted_perm (gt : α → α → Bool) (l : List α) :
    List.Perm (pySorted gt l) l := by
  have := pySorted_perm_aux gt l []
  simpa [pySorted] using this

theorem insertStable_pairwise (gt : α → α → Bool)
    (hasym : ∀ a b, gt a b = true → gt b a = false)
    (hnt : ∀ a b c, gt a b = true → gt c b = false → gt c a = false)
    (x : α) (l : List α) (hl : l.Pairwise (fun a b => gt b a = false)) :
    (insertStable gt x l).Pairwise (fun a b => gt b a = false) := by
  induction l with
  | nil => simp [insertStable]
  | cons y ys ih =>
    rcases List.pairwise_cons.mp hl with ⟨hy, hys⟩
    simp only [insertStable]
    by_cases hgt : gt x y = true
    · rw [if_pos hgt]
      refine List.pairwise_cons.mpr ⟨?_, hl⟩
      intro w hw
      rcases List.mem_cons.mp hw with h1 | h1
      · subst h1; exact hasym _ _ hgt
      · exact hnt x y w hgt (hy w h1)
    · rw [if_neg hgt]
      refine List.pairwise_cons.mpr ⟨?_, ih hys⟩
      intro w hw
      have hw' : w ∈ x :: ys := (insertStable_perm gt x ys).mem_iff.mp hw
      rcases List.mem_cons.mp hw' with h1 | h1
      · subst h1; exact Bool.eq_false_iff.mpr hgt
      · exact hy w h1

theorem pySorted_pairwise (gt : α → α → Bool)
    (hasym : ∀ a b, gt a b = true → gt b a = false)
    (hnt : ∀ a b c, gt a b = true → gt c b = false → gt c a = false)
    (l : List α) :
    (pySorted gt l).Pairwise (fun a b => gt b a = false) := by
  have aux : ∀ (l acc : List α), acc.Pairwise (fun a b => gt b a = false) →
      (l.foldl (fun acc x => insertStable gt x acc) acc).Pairwise (fun a b => gt b a = false) := by
    intro l
    induction l with
    | nil => intro acc h; simpa using h
    | cons x xs ih =>
      intro acc h
      exact ih _ (insertStable_pairwise gt hasym hnt x acc h)
  exact aux l [] (by simp)

/-! ## Lemmas: the pair comparison of `rerank_bm25` -/

theorem pairGt_asymm {p q : Int × String} (h : pairGt p q) : ¬ pairGt q p := by
  rcases h with h1 | ⟨h1, h2⟩
  · rintro (h3 | ⟨h3, _⟩) <;> omega
  · rintro (h3 | ⟨h3, h4⟩)
    · omega
    · rw [strLtL_asymm h2] at h4; exact absurd h4 (by simp)

theorem pairGt_negtrans {x y z : Int × String} (h1 : pairGt x y) (h2 : ¬ pairGt z y) :
    ¬ pairGt z x := by
  rintro (h3 | ⟨h3, h4⟩)
  · rcases h1 with h5 | ⟨h5, _⟩ <;> exact h2 (Or.inl (by omega))
  · rcases h1 with h5 | ⟨h5, h6⟩
    · exact h2 (Or.inl (by omega))
    · exact h2 (Or.inr ⟨by omega, strLtL_trans h6 h4⟩)

/-! ## Lemmas: whitespace splitting and joining (for `chunk_text`) -/

theorem pySplitAux_good (l : List Char) :
    ∀ acc, (∀ c ∈ acc, isPySpace c = false) →
      ∀ w ∈ pySplitAux l acc, w ≠ [] ∧ ∀ c ∈ w, isPySpace c = false := by
  induction l with
  | nil =>
    intro acc hacc w hw
    cases acc with
    | nil => simp [pySplitAux] at hw
    | cons a as =>
      simp only [pySplitAux, List.mem_singleton] at hw
      subst hw
      refine ⟨by simp, ?_⟩
      intro c hc
      exact hacc c (List.mem_reverse.mp hc)
  | cons c cs ih =>
    intro acc hacc w hw
    by_cases hsp : isPySpace c = true
    · rw [pySplitAux, if_pos hsp] at hw
      by_cases hae : acc.isEmpty = true
      · rw [if_pos hae] at hw
        exact ih [] (by simp) w hw
      · rw [if_neg hae] at hw
        rcases List.mem_cons.mp hw with h1 | h1
        · subst h1
          refine ⟨?_, ?_⟩
          · simpa [List.reverse_eq_nil_iff] using (by simpa [List.isEmpty_iff] using hae)
          · intro x hx
            exact hacc x (List.mem_reverse.mp hx)
        · exact ih [] (by simp) w h1
    · rw [pySplitAux, if_neg hsp] at hw
      refine ih (c :: acc) ?_ w hw
      intro x hx
      rcases List.mem_cons.mp hx with h1 | h1
      · subst h1; exact Bool.eq_false_iff.mpr hsp
      · exact hacc x h1

theorem pySplitAux_append_word (w : List Char) (hw : ∀ c ∈ w, isPySpace c = false) :
    ∀ cs acc, pySplitAux (w ++ cs) acc = pySplitAux cs (w.reverse ++ acc) := by
  induction w with
  | nil => simp
  | cons x xs ih =>
    intro cs acc
    have hx : isPySpace x = false := hw x (by simp)
    rw [List.cons_append, pySplitAux, if_neg (by simp [hx])]
    rw [ih (fun c hc => hw c (by simp [hc])) cs (x :: acc)]
    simp

theorem pySplitL_joinSepL (ws : List (List Char))
    (hws : ∀ w ∈ ws, w ≠ [] ∧ ∀ c ∈ w, isPySpace c = false) :
    pySplitL (joinSepL ws) = ws := by
  induction ws with
  | nil => rfl
  | cons w rest ih =>
    obtain ⟨hne, hgood⟩ := hws w (by simp)
    have hrevne : w.reverse.isEmpty = false := by
      rw [Bool.eq_false_iff]
      intro hc
      exact hne (by simpa [List.reverse_eq_nil_iff] using List.isEmpty_iff.mp hc)
    cases rest with
    | nil =>
      show pySplitAux (joinSepL [w]) [] = [w]
      have hj : joinSepL [w] = w := rfl
      have h2 : pySplitAux w [] = pySplitAux [] w.reverse := by
        have h3 := pySplitAux_append_word w hgood [] []
        simpa using h3
      rw [hj, h2]
      cases hrev : w.reverse with
      | nil => exact absurd (List.reverse_eq_nil_iff.mp hrev) hne
      | cons a as =>
        simp only [pySplitAux]
        rw [← hrev, List.reverse_reverse]
    | cons w2 rest2 =>
      show pySplitAux (joinSepL (w :: w2 :: rest2)) [] = w :: w2 :: rest2
      have hj : joinSepL (w :: w2 :: rest2) = w ++ ' ' :: joinSepL (w2 :: rest2) := rfl
      rw [hj, pySplitAux_append_word w hgood, List.append_nil]
      rw [pySplitAux, if_pos (by rfl), if_neg (by simp [hrevne])]
      rw [List.reverse_reverse]
      congr 1
      exact ih (fun w' hw' => hws w' (by simp [hw']))

theorem joinSepL_append (a b : List (List Char)) (ha : a ≠ []) (hb : b ≠ []) :
    joinSepL (a ++ b) = joinSepL a ++ ' ' :: joinSepL b := by
  induction a with
  | nil => exact absurd rfl ha
  | cons w a' ih =>
    cases a' with
    | nil =>
      cases b with
      | nil => exact absurd rfl hb
      | cons w2 b' => rfl
    | cons w1 a'' =>
      have h1 : joinSepL ((w :: w1 :: a'') ++ b) = w ++ ' ' :: joinSepL ((w1 :: a'') ++ b) := rfl
      rw [h1, ih (by simp)]
      show w ++ ' ' :: (joinSepL (w1 :: a'') ++ ' ' :: joinSepL b)
        = (w ++ ' ' :: joinSepL (w1 :: a'')) ++ ' ' :: joinSepL b
      simp

theorem joinSepL_map_flatten (gs : List (List (List Char))) (hgs : ∀ g ∈ gs, g ≠ []) :
    joinSepL (gs.map joinSepL) = joinSepL gs.flatten := by
  induction gs with
  | nil => rfl
  | cons g rest ih =>
    cases rest with
    | nil => simp [joinSepL]
    | cons g2 rest2 =>
      have hg : g ≠ [] := hgs g (by simp)
      have hg2 : g2 ≠ [] := hgs g2 (by simp)
      have hfl : g2 ++ rest2.flatten ≠ [] := by
        intro hc
        exact hg2 (List.append_eq_nil.mp hc).1
      have h1 : joinSepL ((g :: g2 :: rest2).map joinSepL)
          = joinSepL g ++ ' ' :: joinSepL ((g2 :: rest2).map joinSepL) := rfl
      rw [h1, ih (fun g' hg' => hgs g' (by simp [hg']))]
      simp only [List.flatten_cons]
      rw [joinSepL_append g (g2 ++ rest2.flatten) hg hfl]

/-! ## Lemmas: `groupWords` -/

theorem groupWords_nil (k : Nat) : groupWords k ([] : List α) = [] := by
  rw [groupWords]

theorem groupWords_cons (k : Nat) (hk : k ≠ 0) (x : α) (rest : List α) :
    groupWords k (x :: rest) = (x :: rest).take k :: groupWords k ((x :: rest).drop k) := by
  rw [groupWords, if_neg hk]

theorem flatten_groupWords_aux (k : Nat) (hk : k ≠ 0) :
    ∀ n (xs : List α), xs.length ≤ n → (groupWords k xs).flatten = xs := by
  intro n
  induction n with
  | zero =>
    intro xs h
    rw [List.length_eq_zero.mp (Nat.le_zero.mp h), groupWords_nil]
    rfl
  | succ n ih =>
    intro xs h
    cases xs with
    | nil => rw [groupWords_nil]; rfl
    | cons x rest =>
      rw [groupWords_cons k hk, List.flatten_cons]
      rw [ih ((x :: rest).drop k) (by simp only [List.length_drop, List.length_cons] at h ⊢; omega)]
      exact List.take_append_drop k (x :: rest)

theorem flatten_groupWords (k : Nat) (hk : k ≠ 0) (xs : List α) :
    (groupWords k xs).flatten = xs :=
  flatten_groupWords_aux k hk xs.length xs le_rfl

theorem length_groupWords_aux (k : Nat) (hk : k ≠ 0) :
    ∀ n (xs : List α), xs.length ≤ n →
      (groupWords k xs).length = (xs.length + k - 1) / k := by
  intro n
  induction n with
  | zero =>
    intro xs h
    rw [List.length_eq_zero.mp (Nat.le_zero.mp h), groupWords_nil]
    simp only [List.length_nil, Nat.zero_add]
    rw [Nat.div_eq_of_lt (by omega)]
  | succ n ih =>
    intro xs h
    cases xs with
    | nil =>
      rw [groupWords_nil]
      simp only [List.length_nil, Nat.zero_add]
      rw [Nat.div_eq_of_lt (by omega)]
    | cons x rest =>
      rw [groupWords_cons k hk, List.length_cons]
      rw [ih ((x :: rest).drop k) (by simp only [List.length_drop, List.length_cons] at h ⊢; omega)]
      simp only [List.length_drop, List.length_cons]
      rcases Nat.lt_or_ge (rest.length + 1) k with hlt | hge
      · have hz : rest.length + 1 - k = 0 := by omega
        rw [hz]
        have h0 : (0 + k - 1) / k = 0 := Nat.div_eq_of_lt (by omega)
        rw [h0]
        have h1 : rest.length + 1 + k - 1 = rest.length + k := by omega
        rw [h1, Nat.add_div_right _ (by omega), Nat.div_eq_of_lt (by omega)]
      · have h1 : rest.length + 1 - k + k - 1 = rest.length + 1 - 1 := by omega
        have h2 : rest.length + 1 + k - 1 = (rest.length + 1 - 1) + k := by omega
        rw [h1, h2, Nat.add_div_right _ (by omega)]

theorem length_groupWords (k : Nat) (hk : k ≠ 0) (xs : List α) :
    (groupWords k xs).length = (xs.length + k - 1) / k :=
  length_groupWords_aux k hk xs.length xs le_rfl

theorem mem_groupWords_ne_nil_aux (k : Nat) (hk : k ≠ 0) :
    ∀ n (xs : List α), xs.length ≤ n → ∀ g ∈ groupWords k xs, g ≠ [] := by
  intro n
  induction n with
  | zero =>
    intro xs h g hg
    rw [List.length_eq_zero.mp (Nat.le_zero.mp h), groupWords_nil] at hg
    simp at hg
  | succ n ih =>
    intro xs h g hg
    cases xs with
    | nil => rw [groupWords_nil] at hg; simp at hg
    | cons x rest =>
      rw [groupWords_cons k hk] at hg
      rcases List.mem_cons.mp hg with h1 | h1
      · subst h1
        cases k with
        | zero => exact absurd rfl hk
        | succ k' => simp [List.take_cons]
      · exact ih ((x :: rest).drop k)
          (by simp only [List.length_drop, List.length_cons] at h ⊢; omega) g h1

theorem mem_groupWords_ne_nil (k : Nat) (hk : k ≠ 0) (xs : List α) :
    ∀ g ∈ groupWords k xs, g ≠ [] :=
  mem_groupWords_ne_nil_aux k hk xs.length xs le_rfl

/-! ## Lemmas: folded dictionary writes -/

theorem dictGet_foldl_dictSet_of_notMem (f : β → String) (g : β → α) (l : List β)
    (d : List (String × α)) (k : String) (hk : k ∉ l.map f) :
    dictGet (l.foldl (fun d b => dictSet d (f b) (g b)) d) k = dictGet d k := by
  induction l generalizing d with
  | nil => rfl
  | cons b rest ih =>
    simp only [List.map_cons, List.mem_cons] at hk
    push_neg at hk
    simp only [List.foldl_cons]
    rw [ih _ hk.2, dictGet_dictSet_ne d (g b) (fun h => hk.1 h.symm)]

theorem isSome_dictGet_foldl_dictSet (f : β → String) (g : β → α) (l : List β)
    (d : List (String × α)) (k : String) (h : (dictGet d k).isSome = true) :
    (dictGet (l.foldl (fun d b => dictSet d (f b) (g b)) d) k).isSome = true := by
  induction l generalizing d with
  | nil => exact h
  | cons b rest ih =>
    simp only [List.foldl_cons]
    exact ih _ (isSome_dictGet_dictSet d (f b) k (g b) h)

theorem foldl_dictSet_idem (f : β → String) (g : β → α) (l : List β)
    (d : List (String × α)) (hnd : (l.map f).Nodup) :
    l.foldl (fun d b => dictSet d (f b) (g b)) (l.foldl (fun d b => dictSet d (f b) (g b)) d)
      = l.foldl (fun d b => dictSet d (f b) (g b)) d := by
  induction l generalizing d with
  | nil => rfl
  | cons b rest ih =>
    simp only [List.map_cons, List.nodup_cons] at hnd
    simp only [List.foldl_cons]
    have hget : dictGet
        (rest.foldl (fun d q => dictSet d (f q) (g q)) (dictSet d (f b) (g b))) (f b)
        = some (g b) := by
      rw [dictGet_foldl_dictSet_of_notMem f g _ _ _ hnd.1, dictGet_dictSet_self]
    rw [dictSet_eq_of_get _ hget]
    exact ih (dictSet d (f b) (g b)) hnd.2

theorem mem_keys_dictSetDefault_elim (d : List (String × α)) (k a : String) (v : α)
    (h : a ∈ (dictSetDefault d k v).map Prod.fst) : a ∈ d.map Prod.fst ∨ a = k := by
  unfold dictSetDefault at h
  split at h
  · exact Or.inl h
  · rw [List.map_append, List.mem_append] at h
    rcases h with h1 | h1
    · exact Or.inl h1
    · simp at h1
      exact Or.inr h1

theorem isSome_dictGet_dictSetDefault_mono (d : List (String × α)) (k a : String) (v : α)
    (h : (dictGet d a).isSome = true) :
    (dictGet (dictSetDefault d k v) a).isSome = true := by
  unfold dictSetDefault
  split
  · exact h
  · rw [dictGet_append]
    rcases Option.isSome_iff_exists.mp h with ⟨w, hw⟩
    simp [hw]

/-! ## Lemmas: the consolidation merge never lowers a score -/

theorem dictGetD_mergeWeakness_mono (ws : List (String × Int)) (w : RankedWeakness)
    (t : String) : dictGetD ws t 0 ≤ dictGetD (mergeWeakness ws w) t 0 := by
  unfold mergeWeakness
  split
  · exact le_refl _
  · by_cases ht : w.topic = t
    · subst ht
      unfold dictGetD
      rw [dictGet_dictSet_self]
      simp only [Option.getD_some]
      exact le_max_left _ _
    · unfold dictGetD
      rw [dictGet_dictSet_ne ws _ ht]

theorem dictGetD_foldl_mergeWeakness_mono (l : List RankedWeakness)
    (ws : List (String × Int)) (t : String) :
    dictGetD ws t 0 ≤ dictGetD (l.foldl mergeWeakness ws) t 0 := by
  induction l generalizing ws with
  | nil => exact le_refl _
  | cons w rest ih =>
    simp only [List.foldl_cons]
    exact le_trans (dictGetD_mergeWeakness_mono ws w t) (ih (mergeWeakness ws w))

theorem dictGetD_dictSetDefault_zero_mono (d : List (String × Int)) (k t : String) :
    dictGetD d t 0 ≤ dictGetD (dictSetDefault d k 0) t 0 := by
  unfold dictSetDefault
  split
  · exact le_refl _
  · unfold dictGetD
    rw [dictGet_append]
    cases hg : dictGet d t with
    | some v => simp
    | none =>
      simp only [Option.none_or, Option.getD_none]
      unfold dictGet
      split <;> simp [dictGet]

/-! ## Lemmas: state-field preservation -/

theorem register_topic_interaction_count (m : Memory) (t : String) :
    (register_topic m t).interaction_count = m.interaction_count := by
  unfold register_topic
  split
  · rfl
  · split <;> rfl

theorem register_topic_history (m : Memory) (t : String) :
    (register_topic m t).history = m.history := by
  unfold register_topic
  split
  · rfl
  · split <;> rfl

theorem register_topic_weakness_getD_mono (m : Memory) (t a : String) :
    dictGetD m.weakness_scores a 0 ≤ dictGetD (register_topic m t).weakness_scores a 0 := by
  unfold register_topic
  split
  · exact le_refl _
  · split
    · exact le_refl _
    · exact dictGetD_dictSetDefault_zero_mono m.weakness_scores t a

theorem mem_topics_register_topic (m : Memory) (t : String) (ht : t ≠ "") :
    t ∈ (register_topic m t).topics_seen := by
  unfold register_topic
  rw [if_neg ht]
  split
  · assumption
  · simp

theorem register_topic_topics_mono (m : Memory) (t a : String)
    (ha : a ∈ m.topics_seen) : a ∈ (register_topic m t).topics_seen := by
  unfold register_topic
  split
  · exact ha
  · split
    · exact ha
    · simp [ha]

/-! ## Claim theorems -/

/-- C1: the claim states that `add_weakness_signal(topic, "mistake")` adds
`+3` per call (so `+9` over three calls).  In the code as written, line 96
references the unbound name `user_msg`, so the very first call raises
`NameError` after registering the topic and before any increment: on a fresh
session, `add_weakness_signal("algebra", "mistake")` leaves the score at `0`
(not `3`) and surfaces the raised error.  The topic is still registered
exactly once, as the claim says. -/
theorem c1_add_weakness_signal_raises_before_increment :
    (add_weakness_signal initMemory "algebra" "mistake").2 = some nameErrorMsg ∧
    (add_weakness_signal initMemory "algebra" "mistake").1.weakness_scores = [("algebra", 0)] ∧
    (add_weakness_signal initMemory "algebra" "mistake").1.topics_seen = ["algebra"] :=
  ⟨rfl, rfl, rfl⟩

/-- C2 (counterexample): the claim says BM25-score ties are broken by the
candidates' original vector-similarity rank.  Two candidates sharing no token
with the query both receive BM25 score `0`; on candidates `["a", "b"]` (in
vector order) the code returns `["b", "a"]` — Python's
`sorted(zip(scores, chunks), reverse=True)` compares the `(score, text)`
tuples, so equal scores fall through to *descending text* order, not to the
original rank (which would give `["a", "b"]`). -/
theorem c2_tie_break_counterexample :
    rerank_bm25 [0, 0] ["a", "b"] = .ok ["b", "a"] ∧
    (["b", "a"] : List String) ≠ ["a", "b"] :=
  ⟨rfl, by decide⟩

/-- C2 (amended): for every non-empty candidate set (one lexical score per
candidate), `rerank_bm25` returns the first `min 3 n` elements of a
permutation of the scored candidates that is sorted by score descending with
ties broken by descending text order (`pairGt`), not by original rank. -/
theorem c2_rerank_returns_top3_of_desc_sort (scores : List Int) (chunks : List String)
    (hne : chunks ≠ []) (hlen : scores.length = chunks.length) :
    ∃ ps : List (Int × String),
      List.Perm ps (scores.zip chunks) ∧
      ps.Pairwise (fun p q => ¬ pairGt q p) ∧
      rerank_bm25 scores chunks = .ok ((ps.map Prod.snd).take 3) ∧
      ((ps.map Prod.snd).take 3).length = min 3 chunks.length := by
  refine ⟨pySorted (fun p q => decide (pairGt p q)) (scores.zip chunks), ?_, ?_, ?_, ?_⟩
  · exact pySorted_perm _ _
  · have hp := pySorted_pairwise (fun p q => decide (pairGt p q))
      (fun a b h => decide_eq_false (pairGt_asymm (of_decide_eq_true h)))
      (fun a b c h1 h2 =>
        decide_eq_false (pairGt_negtrans (of_decide_eq_true h1) (of_decide_eq_false h2)))
      (scores.zip chunks)
    exact hp.imp (fun h => of_decide_eq_false h)
  · unfold rerank_bm25
    rw [if_neg (by simp [List.isEmpty_iff, hne])]
  · rw [List.length_take, List.length_map, (pySorted_perm _ _).length_eq,
      List.length_zip, hlen]
    simp

/-- C2 witness: the amended ordering theorem applied at a concrete input. -/
theorem c2_rerank_returns_top3_witness :
    ∃ ps : List (Int × String),
      List.Perm ps ([(1 : Int), 2].zip ["x", "y"]) ∧
      ps.Pairwise (fun p q => ¬ pairGt q p) ∧
      rerank_bm25 [1, 2] ["x", "y"] = .ok ((ps.map Prod.snd).take 3) ∧
      ((ps.map Prod.snd).take 3).length = min 3 (["x", "y"] : List String).length :=
  c2_rerank_returns_top3_of_desc_sort [1, 2] ["x", "y"] (by decide) rfl

/-- C3 (counterexample): the claim says retrieval on an empty index returns
an empty sequence and never raises.  On an empty candidate set the reranker
constructs `BM25Okapi([])`, whose initializer divides by the corpus size —
`retrieve_with_rerank` propagates that `ZeroDivisionError` instead of
returning `[]`. -/
theorem c3_empty_retrieve_raises :
    retrieve_with_rerank [] [] = .error "ZeroDivisionError: division by zero" := rfl

/-- C3 (amended): only the adapter boundary satisfies the claim —
`KritikaRAGAdapter.retrieve_context` catches every exception from the
pipeline and returns the empty string, so on an empty index the adapter
yields an empty context and no exception escapes. -/
theorem c3_adapter_recovers_to_empty :
    retrieve_context [] [] = "" ∧
    (∀ (scores : List Int) (candidates : List String) (e : String),
      retrieve_with_rerank scores candidates = .error e →
        retrieve_context scores candidates = "") := by
  refine ⟨rfl, ?_⟩
  intro scores candidates e h
  unfold retrieve_context
  rw [h]

/-- C3 witness: the adapter-recovery theorem applied at the empty index. -/
theorem c3_adapter_recovers_to_empty_witness :
    retrieve_context [] [] = "" :=
  c3_adapter_recovers_to_empty.2 [] [] "ZeroDivisionError: division by zero" rfl

/-- C6: a stored weakness score never decreases — `add_weakness_signal`
(which only registers, initializing an absent key to `0`, before raising),
and `run_consolidation` (whose merge writes `max(existing, reported)`) are
both pointwise monotone on `weakness_scores`; and merging a reported score
`2` over a local score `5` leaves the stored score at `5`. -/
theorem c6_weakness_scores_never_decrease :
    (∀ (m : Memory) (topic signal t : String),
      scoreOf m t ≤ scoreOf (add_weakness_signal m topic signal).1 t) ∧
    (∀ (tut : UltraTutorV6) (net : String → Option String)
        (jparse : String → Option Report) (t : String),
      scoreOf tut.memory t ≤ scoreOf (run_consolidation tut net jparse).1.memory t) ∧
    dictGet (run_consolidation
        { initTutor with memory := { initMemory with
            weakness_scores := [("t", 5)]
            topics_seen := ["t"]
            difficulty := [("t", "intermediate")] } }
        (fun _ => some "no json here") (fun _ => some ⟨[⟨"t", 2⟩], [], [], [], []⟩)
      ).1.memory.weakness_scores "t" = some 5 := by
  refine ⟨?_, ?_, rfl⟩
  · intro m topic signal t
    exact register_topic_weakness_getD_mono m _ t
  · intro tut net jparse t
    exact dictGetD_foldl_mergeWeakness_mono _ tut.memory.weakness_scores t

/-- C9: difficulty recomputation maps each stored score through the fixed
thresholds (`≥ 8` beginner, `≥ 4` intermediate, else advanced) — on scores
`{A: 9, B: 5, C: 1}` it produces `{A: beginner, B: intermediate, C:
advanced}` — it touches no field other than `difficulty`, and it is
idempotent (hence gives the same difficulty map on repeated calls). -/
theorem c9_recompute_difficulty_thresholds :
    (recompute_difficulty_local
        { initMemory with weakness_scores := [("A", 9), ("B", 5), ("C", 1)] }).difficulty
      = [("A", "beginner"), ("B", "intermediate"), ("C", "advanced")] ∧
    (∀ m : Memory,
      (recompute_difficulty_local m).history = m.history ∧
      (recompute_difficulty_local m).topics_seen = m.topics_seen ∧
      (recompute_difficulty_local m).weakness_scores = m.weakness_scores ∧
      (recompute_difficulty_local m).interaction_count = m.interaction_count ∧
      (recompute_difficulty_local m).consolidation_summary = m.consolidation_summary ∧
      (recompute_difficulty_local m).rag_chunks = m.rag_chunks) ∧
    (∀ m : Memory, (m.weakness_scores.map Prod.fst).Nodup →
      recompute_difficulty_local (recompute_difficulty_local m)
        = recompute_difficulty_local m) := by
  refine ⟨rfl, fun m => ⟨rfl, rfl, rfl, rfl, rfl, rfl⟩, ?_⟩
  intro m h
  unfold recompute_difficulty_local
  congr 1
  exact foldl_dictSet_idem Prod.fst (fun ts => levelOfScore ts.2) m.weakness_scores
    m.difficulty h

/-- C9 witness: idempotence applied at the concrete score map of the claim. -/
theorem c9_recompute_difficulty_witness :
    recompute_difficulty_local (recompute_difficulty_local
        { initMemory with weakness_scores := [("A", 9), ("B", 5), ("C", 1)] })
      = recompute_difficulty_local
        { initMemory with weakness_scores := [("A", 9), ("B", 5), ("C", 1)] } :=
  c9_recompute_difficulty_thresholds.2.2
    { initMemory with weakness_scores := [("A", 9), ("B", 5), ("C", 1)] } (by decide)

/-- C10: `should_use_rag` returns `False` whenever the adapter is disabled;
when enabled it returns `True` exactly when the weakness score is at least 3
or the difficulty is `"beginner"` or `"intermediate"`. -/
theorem c10_should_use_rag_gating (s : Int) (d : String) :
    should_use_rag false s d = false ∧
    (should_use_rag true s d = true ↔ (3 ≤ s ∨ d = "beginner" ∨ d = "intermediate")) := by
  refine ⟨rfl, ?_⟩
  unfold should_use_rag
  by_cases h1 : s ≥ 3
  · simp [h1]
  · by_cases h2 : d = "beginner" ∨ d = "intermediate" <;> simp [h1, h2]

/-- Helper: `register_topic` preserves the registration invariant. -/
theorem topicInvariant_register_topic (m : Memory) (t : String)
    (h : topicInvariant m) : topicInvariant (register_topic m t) := by
  unfold register_topic
  split
  · exact h
  · split
    · exact h
    · intro a ha
      rcases mem_keys_dictSetDefault_elim m.weakness_scores t a 0 ha with h1 | h1
      · obtain ⟨hmem, hsome⟩ := h a h1
        exact ⟨by simp [hmem], isSome_dictGet_dictSetDefault_mono _ _ _ _ hsome⟩
      · subst h1
        exact ⟨by simp, isSome_dictGet_dictSetDefault_self _ _ _⟩

/-- Helper: `recompute_difficulty_local` preserves the registration
invariant (it only adds or overwrites difficulty keys). -/
theorem topicInvariant_recompute (m : Memory) (h : topicInvariant m) :
    topicInvariant (recompute_difficulty_local m) := by
  intro a ha
  obtain ⟨hmem, hsome⟩ := h a ha
  exact ⟨hmem, isSome_dictGet_foldl_dictSet Prod.fst (fun ts => levelOfScore ts.2)
    m.weakness_scores m.difficulty a hsome⟩

/-- C5 (counterexample): the claim asserts the registration invariant for
every reachable state, consolidation merges included.  One consolidation
merge from the fresh state, whose parsed report names the unseen topic
`"x"`, writes `weakness_scores["x"]` directly: afterwards `"x"` is keyed in
`weakness_scores` but absent from both `topics_seen` and `difficulty`. -/
theorem c5_merge_breaks_registration_invariant :
    topicInvariant initMemory ∧
    dictGet (run_consolidation initTutor (fun _ => some "no json here")
        (fun _ => some ⟨[⟨"x", 1⟩], [], [], [], []⟩)).1.memory.weakness_scores "x" = some 1 ∧
    "x" ∉ (run_consolidation initTutor (fun _ => some "no json here")
        (fun _ => some ⟨[⟨"x", 1⟩], [], [], [], []⟩)).1.memory.topics_seen ∧
    dictGet (run_consolidation initTutor (fun _ => some "no json here")
        (fun _ => some ⟨[⟨"x", 1⟩], [], [], [], []⟩)).1.memory.difficulty "x" = none := by
  exact ⟨by decide, rfl, by decide, rfl⟩

/-- C5 (amended): the registration invariant holds initially and is
preserved by `register_topic`, `add_weakness_signal`, `push_turn` and
`recompute_difficulty_local` — registration is atomic across the three
structures for those operations — but the consolidation merge can break it
(see the counterexample), because `run_consolidation` writes
`weakness_scores[t]` without registering `t`. -/
theorem c5_invariant_preserved_by_registration_ops :
    topicInvariant initMemory ∧
    (∀ (m : Memory) (t : String), topicInvariant m →
      topicInvariant (register_topic m t)) ∧
    (∀ (m : Memory) (topic signal : String), topicInvariant m →
      topicInvariant (add_weakness_signal m topic signal).1) ∧
    (∀ (m : Memory) (u v : String), topicInvariant m →
      topicInvariant (push_turn m u v)) ∧
    (∀ m : Memory, topicInvariant m →
      topicInvariant (recompute_difficulty_local m)) := by
  refine ⟨by decide, topicInvariant_register_topic, ?_, ?_, topicInvariant_recompute⟩
  · intro m topic signal h
    exact topicInvariant_register_topic m _ h
  · intro m u v h
    exact h

/-- C5 witness: invariant preservation applied at a concrete state. -/
theorem c5_invariant_preserved_witness :
    topicInvariant (register_topic initMemory "algebra") :=
  c5_invariant_preserved_by_registration_ops.2.1 initMemory "algebra" (by decide)

/-- C7: the completion-protocol parser contract — on the concrete input the
reply is the (stripped) text before `"###META###"` and the signal block
parses to topic `"algebra"`, signal `"mistake"`; when the delimiter is
absent the split yields nothing (so `handle_user` keeps the whole text as the
reply and parses `""`), and parsing `""` gives the all-defaults signal set;
lines without a `":"` are skipped; and on any input whose lines all lack a
`":"` the parser returns the all-defaults set (it is a total function — it
never raises). -/
theorem c7_meta_protocol_parser_contract :
    ((splitOnceSub "###META###"
        "Hello!\n###META###\nTOPIC: algebra\nWEAKNESS_SIGNAL: mistake\n").map
        (fun p => (pyStrip p.1, pyStrip p.2))
      = some ("Hello!", "TOPIC: algebra\nWEAKNESS_SIGNAL: mistake")) ∧
    parse_meta_block "TOPIC: algebra\nWEAKNESS_SIGNAL: mistake"
      = { topic := some "algebra", weakness_signal := "mistake", difficulty := none,
          quiz_feedback := "none", ask_consolidation := false } ∧
    (∀ raw : String, containsSub raw "###META###" = false →
      splitOnceSub "###META###" raw = none) ∧
    parse_meta_block "" = metaDefault ∧
    (∀ (res : MetaInfo) (line : String), splitOnceChL ':' line.toList = none →
      parse_meta_line res line = res) ∧
    (∀ text : String, (∀ line ∈ pySplitLines text, splitOnceChL ':' line.toList = none) →
      parse_meta_block text = metaDefault) := by
  refine ⟨rfl, rfl, ?_, rfl, ?_, ?_⟩
  · intro raw h
    unfold containsSub at h
    unfold splitOnceSub
    have hn : splitOnceSubL "###META###".toList raw.toList = none := by
      cases hc : splitOnceSubL "###META###".toList raw.toList with
      | none => rfl
      | some p => rw [hc] at h; simp at h
    rw [hn]
    rfl
  · intro res line h
    unfold parse_meta_line
    rw [h]
  · intro text h
    unfold parse_meta_block
    have aux : ∀ (ls : List String) (res : MetaInfo),
        (∀ l ∈ ls, splitOnceChL ':' l.toList = none) →
        ls.foldl parse_meta_line res = res := by
      intro ls
      induction ls with
      | nil => intro res _; rfl
      | cons l rest ih =>
        intro res hl
        simp only [List.foldl_cons]
        rw [show parse_meta_line res l = res from by
          unfold parse_meta_line; rw [hl l (by simp)]]
        exact ih res (fun l' hl' => hl l' (by simp [hl']))
    exact aux _ _ h

/-- C7 witness: the parser's all-defaults fallback applied at a concrete
colon-free input. -/
theorem c7_meta_protocol_parser_witness :
    parse_meta_block "nothing structured here" = metaDefault :=
  c7_meta_protocol_parser_contract.2.2.2.2.2 "nothing structured here" (by decide)

/-- C8: for every text and every word-group size `k ≥ 1` (Python's `range`
raises on step `0`, and the claim's `ceil` is undefined there), `chunk_text`
splits the whitespace-separated word sequence into consecutive groups:
rejoining all chunks with single spaces reproduces the word sequence
exactly, and the number of chunks is `ceil(word_count / k)` (in integer
arithmetic, `(word_count + k - 1) / k`). -/
theorem c8_chunk_text_partitions_words (text : String) (k : Nat) (hk : 1 ≤ k) :
    ∃ cs : List String, chunk_text text k = .ok cs ∧
      pySplit (joinWords cs) = pySplit text ∧
      cs.length = ((pySplit text).length + k - 1) / k := by
  have hk0 : k ≠ 0 := by omega
  refine ⟨(groupWords k (pySplitL text.toList)).map (fun g => ⟨joinSepL g⟩), ?_, ?_, ?_⟩
  · unfold chunk_text
    rw [if_neg hk0]
  · have hgood : ∀ w ∈ pySplitL text.toList, w ≠ [] ∧ ∀ c ∈ w, isPySpace c = false :=
      pySplitAux_good text.toList [] (by simp)
    have hmap : ((groupWords k (pySplitL text.toList)).map
          (fun g => (⟨joinSepL g⟩ : String))).map String.toList
        = (groupWords k (pySplitL text.toList)).map joinSepL := by
      rw [List.map_map]
      rfl
    show ((pySplitL (String.toList ⟨joinSepL (((groupWords k (pySplitL text.toList)).map
        (fun g => (⟨joinSepL g⟩ : String))).map String.toList)⟩)).map String.mk) = _
    rw [hmap]
    rw [show String.toList ⟨joinSepL ((groupWords k (pySplitL text.toList)).map joinSepL)⟩
        = joinSepL ((groupWords k (pySplitL text.toList)).map joinSepL) from rfl]
    rw [joinSepL_map_flatten _ (mem_groupWords_ne_nil k hk0 _)]
    rw [flatten_groupWords k hk0]
    rw [pySplitL_joinSepL _ hgood]
    rfl
  · rw [List.length_map, length_groupWords k hk0]
    unfold pySplit
    rw [List.length_map]

/-- C8 witness: the chunking theorem applied at a concrete document and
chunk size. -/
theorem c8_chunk_text_partitions_witness :
    ∃ cs : List String, chunk_text "one two three four five" 2 = .ok cs ∧
      pySplit (joinWords cs) = pySplit "one two three four five" ∧
      cs.length = ((pySplit "one two three four five").length + 2 - 1) / 2 :=
  c8_chunk_text_partitions_words "one two three four five" 2 (by omega)

/-- C4 (counterexample): the claim says a transport failure leaves the
session state unmutated.  On a fresh session, one non-command turn whose
completion call fails (the transport returns nothing, so `call_gemini_rest`
degrades to the apology string) returns the apology as the visible reply —
but the state **is** mutated: `interaction_count` became `1`, the fallback
topic `"general"` was registered, and the turn (user message, apology) was
appended to `history`. -/
theorem c4_transport_failure_mutates_state :
    (handle_user initTutor "hi" (fun _ => none) (fun _ => none)).2 = .ok apologyMsg ∧
    (handle_user initTutor "hi" (fun _ => none) (fun _ => none)).1.memory.interaction_count
      = 1 ∧
    initTutor.memory.interaction_count = 0 ∧
    (handle_user initTutor "hi" (fun _ => none) (fun _ => none)).1.memory.topics_seen
      = ["general"] ∧
    initTutor.memory.topics_seen = [] ∧
    (handle_user initTutor "hi" (fun _ => none) (fun _ => none)).1.memory.history
      = [("hi", apologyMsg)] ∧
    initTutor.memory.history = [] :=
  ⟨rfl, rfl, rfl, rfl, rfl, rfl, rfl⟩

/-- Helper: `finish_turn` on a non-consolidation turn just pushes the turn,
recomputes difficulty and returns the reply. -/
theorem finish_turn_no_consolidation (tut : UltraTutorV6) (u r : String)
    (net : String → Option String) (jparse : String → Option Report)
    (h : (push_turn tut.memory u r).interaction_count % CONSOLIDATE_AFTER ≠ 0) :
    finish_turn tut u r false net jparse
      = ({ tut with memory := recompute_difficulty_local (push_turn tut.memory u r) },
         .ok r) := by
  have hcond : ¬ ((false = true) ∨
      (push_turn tut.memory u r).interaction_count % CONSOLIDATE_AFTER = 0) := by
    rintro (hc | hc)
    · exact absurd hc (by simp)
    · exact h hc
  simp only [finish_turn]
  rw [if_neg hcond]

/-- C4 (amended): for every session state, a non-command turn whose
completion call suffers a transport failure (and which does not land on a
consolidation tick) surfaces the apology string as the visible reply, but
mutates the session state: `interaction_count` is incremented, the fallback
topic `"general"` is registered, and the turn (user message, apology) is
appended to the bounded history. -/
theorem c4_transport_failure_apology_and_mutation (tut : UltraTutorV6) (msg : String)
    (jparse : String → Option Report)
    (h1 : ¬ (pyLower (pyStrip msg) = "/reset" ∨ pyLower (pyStrip msg) = "reset session"))
    (h2 : ¬ (pyLower (pyStrip msg) = "/career" ∨ pyLower (pyStrip msg) = "career"))
    (h3 : (tut.memory.interaction_count + 1) % CONSOLIDATE_AFTER ≠ 0) :
    (handle_user tut msg (fun _ => none) jparse).2 = .ok apologyMsg ∧
    (handle_user tut msg (fun _ => none) jparse).1.memory.interaction_count
      = tut.memory.interaction_count + 1 ∧
    "general" ∈ (handle_user tut msg (fun _ => none) jparse).1.memory.topics_seen ∧
    (handle_user tut msg (fun _ => none) jparse).1.memory.history
      = (tut.memory.history ++ [(msg, apologyMsg)]).drop
          (tut.memory.history.length + 1 - KEEP_HISTORY) := by
  have ecount : (push_turn (register_topic (recompute_difficulty_local { tut.memory with interaction_count := tut.memory.interaction_count + 1 }) "general") msg apologyMsg).interaction_count = tut.memory.interaction_count + 1 := by
    show (register_topic (recompute_difficulty_local { tut.memory with interaction_count := tut.memory.interaction_count + 1 }) "general").interaction_count = tut.memory.interaction_count + 1
    rw [register_topic_interaction_count]
    rfl
  have key : handle_user tut msg (fun _ => none) jparse
      = finish_turn { tut with memory := register_topic (recompute_difficulty_local { tut.memory with interaction_count := tut.memory.interaction_count + 1 }) "general" } msg apologyMsg false (fun _ => none) jparse := by
    unfold handle_user
    rw [if_neg h1, if_neg h2]
    rfl
  rw [key, finish_turn_no_consolidation _ _ _ _ _ (by rw [ecount]; exact h3)]
  refine ⟨rfl, ?_, ?_, ?_⟩
  · exact ecount
  · exact mem_topics_register_topic _ "general" (by decide)
  · show (push_turn (register_topic (recompute_difficulty_local { tut.memory with interaction_count := tut.memory.interaction_count + 1 }) "general") msg apologyMsg).history = _
    have e2 : (register_topic (recompute_difficulty_local { tut.memory with interaction_count := tut.memory.interaction_count + 1 }) "general").history = tut.memory.history := by
      rw [register_topic_history]
      rfl
    simp only [push_turn, e2, List.length_append, List.length_cons, List.length_nil,
      Nat.zero_add]

/-- C4 witness: the amended transport-failure theorem applied at a concrete
fresh session and message. -/
theorem c4_transport_failure_witness :
    (handle_user initTutor "hello" (fun _ => none) (fun _ => none)).2 = .ok apologyMsg ∧
    (handle_user initTutor "hello" (fun _ => none) (fun _ => none)).1.memory.interaction_count
      = initTutor.memory.interaction_count + 1 ∧
    "general" ∈ (handle_user initTutor "hello"
      (fun _ => none) (fun _ => none)).1.memory.topics_seen ∧
    (handle_user initTutor "hello" (fun _ => none) (fun _ => none)).1.memory.history
      = (initTutor.memory.history ++ [("hello", apologyMsg)]).drop
          (initTutor.memory.history.length + 1 - KEEP_HISTORY) :=
  c4_transport_failure_apology_and_mutation initTutor "hello" (fun _ => none)
    (by decide) (by decide) (by decide)

end SkillGuru
